import Mathlib

/-!
Verification development for the `systray` tray-icon library
(`src/systray/systrayicon.py`).

The embedding translates the menu-tree compiler
(`SysTrayIcon._prepare_menu_options` / `_recompile_menu_options_with_ids`),
the action dispatcher (`_execute_menu_option`), the notify handler
(`_notify`), the checkbox refresh logic (`CheckBoxMenuOption`) and the
icon-ownership logic (`_load_icon` / `_destroy`) into executable Lean
definitions, and proves or refutes the specification's claims about them.

Python values relevant to the menu compiler are modelled explicitly:
a `callback` field can be `None`, a callable, a string (the special
`QUIT` token is the string "QUIT"), a non-string iterable (a nested list
of raw menu entries), or some other non-iterable object.
-/

mutual

/-- Value stored in a `MenuOption.callback` field.  `callable` carries an
identifier standing for the Python function object; `iterable` carries the
elements of a non-string iterable (a nested raw menu list); `otherVal` is a
non-callable, non-iterable, non-string object. -/
inductive PyCallback : Type where
  | pynone : PyCallback
  | callable : Nat → PyCallback
  | str : String → PyCallback
  | iterable : List RawOption → PyCallback
  | otherVal : PyCallback

/-- Raw menu entry as accepted by `_recompile_menu_options_with_ids`:
a positional tuple `(text, icon_path, callback)`, a keyword mapping
(which can also carry a `submenu`), a pre-built `MenuOption` object
(text, icon_path, callback, submenu), or a value of an unrecognized type. -/
inductive RawOption : Type where
  | tup : String → Option String → PyCallback → RawOption
  | dict : String → Option String → PyCallback → List RawOption → RawOption
  | node : String → Option String → PyCallback → List RawOption → RawOption
  | unrecognized : RawOption

end

/-- Python `callable(obj)` on the modelled values. -/
def isCallable : PyCallback → Bool
  | .callable _ => true
  | _ => false

/-- Python `obj in SysTrayIcon.SPECIAL_ACTIONS`, i.e. equality with the
string `'QUIT'`. -/
def isSpecial : PyCallback → Bool
  | .str s => s == "QUIT"
  | _ => false

/-- Guard of the leaf branch:
`callable(menu_option.callback) or menu_option.callback in SPECIAL_ACTIONS`. -/
def isLeafAction (cb : PyCallback) : Bool := isCallable cb || isSpecial cb

/-- The module-level helper `_non_string_iterable(obj)`: `iter(obj)`
succeeds and `obj` is not a `str`.  Strings are iterable but excluded;
`None`, function objects and other plain objects are not iterable. -/
def nonStringIterable : PyCallback → Bool
  | .iterable _ => true
  | _ => false

mutual

/-- Submenu field of a compiled `MenuOption`: either left as the raw value
it had before compilation (the leaf branch never touches it; `raw []`
covers both `None` and an empty list, which behave identically at every
site where the field is read), or replaced by the compiled children list. -/
inductive CSubmenu : Type where
  | raw : List RawOption → CSubmenu
  | compiled : List CMenuOption → CSubmenu

/-- A `MenuOption` object as it stands after
`_recompile_menu_options_with_ids`: text, icon_path, callback, submenu,
action_id. -/
inductive CMenuOption : Type where
  | mk : String → Option String → PyCallback → CSubmenu → Nat → CMenuOption

end

def CMenuOption.text : CMenuOption → String
  | .mk t _ _ _ _ => t

def CMenuOption.icon_path : CMenuOption → Option String
  | .mk _ i _ _ _ => i

def CMenuOption.callback : CMenuOption → PyCallback
  | .mk _ _ cb _ _ => cb

def CMenuOption.submenu : CMenuOption → CSubmenu
  | .mk _ _ _ s _ => s

def CMenuOption.action_id : CMenuOption → Nat
  | .mk _ _ _ _ a => a

/-- The dict `self._menu_actions_by_id`, as an association list with the
most recent insertion first. -/
abbrev ActionMap := List (Nat × PyCallback)

/-- Dictionary lookup `self._menu_actions_by_id[action_id]`. -/
def mapLookup : ActionMap → Nat → Option PyCallback
  | [], _ => Option.none
  | (k, v) :: rest, i => if k = i then some v else mapLookup rest i

/-- Mutable compiler state: `self._next_action_id` and
`self._menu_actions_by_id`. -/
structure CompSt where
  nextId : Nat
  actions : ActionMap

/-- Exceptions the compiler can raise:
`ValueError('Unknown menu option type', ...)` for an unrecognized entry
type, `TypeError` from iterating the boolean that `_non_string_iterable`
returned, and `Exception('Unknown item', ...)` for an entry with neither
an action nor children. -/
inductive CompErr : Type where
  | unknownOptionType : CompErr
  | typeErrorIterBool : CompErr
  | unknownItem : String → CompErr

/-- Outcome of the non-leaf branch when the `submenu` value is falsy:
the local variable `submenu` holds `_non_string_iterable(callback)`,
a bool; `elif submenu:` on `True` then iterates `True` and raises
`TypeError`, on `False` the `else` branch raises
`Exception('Unknown item', text, icon, callback)`. -/
def compileEntryErr (t : String) (cb : PyCallback) : CompErr :=
  if nonStringIterable cb then .typeErrorIterBool else .unknownItem t

mutual

/-- One iteration of the loop body of `_recompile_menu_options_with_ids`
on the entry `o` with compiler state `st`.  Faithfully keeps the source's
order of effects: `action_id` is taken from the counter, the counter is
incremented only at the end of the iteration (so a submenu's recursion
starts at the submenu's own id), and the leaf branch leaves the raw
submenu field untouched. -/
def recompileOne (o : RawOption) (st : CompSt) :
    Except CompErr (CMenuOption × CompSt) :=
  match o with
  | .unrecognized => .error .unknownOptionType
  | .tup t i cb =>
      if isLeafAction cb then
        .ok (.mk t i cb (.raw []) st.nextId,
             ⟨st.nextId + 1, (st.nextId, cb) :: st.actions⟩)
      else
        .error (compileEntryErr t cb)
  | .dict t i cb sub =>
      if isLeafAction cb then
        .ok (.mk t i cb (.raw sub) st.nextId,
             ⟨st.nextId + 1, (st.nextId, cb) :: st.actions⟩)
      else
        match sub with
        | [] => .error (compileEntryErr t cb)
        | s :: rest =>
            match recompileList (s :: rest) st with
            | .error e => .error e
            | .ok (children, st2) =>
                .ok (.mk t i .pynone (.compiled children) st.nextId,
                     ⟨st2.nextId + 1, st2.actions⟩)
  | .node t i cb sub =>
      if isLeafAction cb then
        .ok (.mk t i cb (.raw sub) st.nextId,
             ⟨st.nextId + 1, (st.nextId, cb) :: st.actions⟩)
      else
        match sub with
        | [] => .error (compileEntryErr t cb)
        | s :: rest =>
            match recompileList (s :: rest) st with
            | .error e => .error e
            | .ok (children, st2) =>
                .ok (.mk t i .pynone (.compiled children) st.nextId,
                     ⟨st2.nextId + 1, st2.actions⟩)

/-- The loop of `_recompile_menu_options_with_ids` over a sibling list,
threading the compiler state and propagating any raised exception. -/
def recompileList (l : List RawOption) (st : CompSt) :
    Except CompErr (List CMenuOption × CompSt) :=
  match l with
  | [] => .ok ([], st)
  | o :: rest =>
      match recompileOne o st with
      | .error e => .error e
      | .ok (c, st1) =>
          match recompileList rest st1 with
          | .error e => .error e
          | .ok (cs, st2) => .ok (c :: cs, st2)

end

/-- Reserved base id `SysTrayIcon.FIRST_ID`. -/
def FIRST_ID : Nat := 1023

/-- The synthetic entry `MenuOption('Quit', callback=SysTrayIcon.QUIT)`
appended by `_prepare_menu_options` (its submenu defaults to `None`). -/
def quitRaw : RawOption := .node "Quit" Option.none (.str "QUIT") []

/-- The body of `_prepare_menu_options`: append the synthetic quit entry
to the top-level sibling list, reset the counter to `FIRST_ID` and the
dispatch dict to empty, and recompile.  Returns the compiled tree together
with the dispatch map, or the raised exception. -/
def prepareMenuOptions (input : List RawOption) :
    Except CompErr (List CMenuOption × ActionMap) :=
  match recompileList (input ++ [quitRaw]) ⟨FIRST_ID, []⟩ with
  | .ok (tree, st) => .ok (tree, st.actions)
  | .error e => .error e

/-- Value of the field `self._menu_options` after `_prepare_menu_options`
runs: the new tree on success; when compilation raises, the assignment
`self._menu_options = ...` never executes, so the field keeps its old
value. -/
def menuAfterPrepare (old : List CMenuOption) (input : List RawOption) :
    List CMenuOption :=
  match prepareMenuOptions input with
  | .ok (tree, _) => tree
  | .error _ => old

mutual

/-- Action ids of a compiled node in pre-order: the node's own id followed
by the ids of its compiled submenu (a raw submenu left on a leaf is not
part of the compiled tree). -/
def nodeIds (c : CMenuOption) : List Nat :=
  match c with
  | .mk _ _ _ sub aid => aid :: subIds sub

def subIds : CSubmenu → List Nat
  | .raw _ => []
  | .compiled l => listIds l

/-- Pre-order, depth-first list of action ids of a compiled sibling list. -/
def listIds : List CMenuOption → List Nat
  | [] => []
  | c :: rest => nodeIds c ++ listIds rest

end

/-- Result of `_execute_menu_option(action_id)`.  `destroyWindow` is the
teardown path `DestroyWindow(self._hwnd)`; `invoke f` stands for the
single call `menu_action(self)` of the callback `f` with the controller
as its argument; `keyError` is the `KeyError` raised by the dict lookup
on a missing id; `notCallableError` is the `TypeError` Python would raise
calling a non-callable (unreachable for maps built by the compiler). -/
inductive ExecResult : Type where
  | destroyWindow : ExecResult
  | invoke : Nat → ExecResult
  | keyError : ExecResult
  | notCallableError : ExecResult

/-- The dispatcher `_execute_menu_option`: look the id up in
`self._menu_actions_by_id`, compare the result with the `QUIT` token,
and either destroy the window or call the callback with `self`. -/
def executeMenuOption (m : ActionMap) (action_id : Nat) : ExecResult :=
  match mapLookup m action_id with
  | Option.none => .keyError
  | some a =>
      if isSpecial a then .destroyWindow
      else
        match a with
        | .callable f => .invoke f
        | _ => .notCallableError

/-- Modelled from the spec: the Win32 message constants re-exported by the
`win32_adapter` module, which is part of this repository but not under
`src/`; these are the standard Win32 values. -/
def WM_LBUTTONDBLCLK : Nat := 0x0203

/-- Modelled from the spec: standard Win32 value, see `WM_LBUTTONDBLCLK`. -/
def WM_RBUTTONUP : Nat := 0x0205

/-- Modelled from the spec: standard Win32 value, see `WM_LBUTTONDBLCLK`. -/
def WM_LBUTTONUP : Nat := 0x0202

/-- What the `_notify` handler decides to do for a given `lparam`. -/
inductive NotifyAction : Type where
  | executeOption : Nat → NotifyAction
  | showMenu : NotifyAction
  | noop : NotifyAction

/-- The branch structure of `_notify`: a left-button double click executes
the option at `self._default_menu_index + SysTrayIcon.FIRST_ID`, a
right-button release shows the menu, anything else does nothing. -/
def notifyHandler (default_menu_index : Nat) (lparam : Nat) : NotifyAction :=
  if lparam = WM_LBUTTONDBLCLK then
    .executeOption (default_menu_index + FIRST_ID)
  else if lparam = WM_RBUTTONUP then .showMenu
  else .noop

example :
    prepareMenuOptions [.tup "Hi" Option.none (.callable 7)]
      = .ok ([.mk "Hi" Option.none (.callable 7) (.raw []) 1023,
              .mk "Quit" Option.none (.str "QUIT") (.raw []) 1024],
             [(1024, .str "QUIT"), (1023, .callable 7)]) := by rfl

/-- Scenario-A compiled map, for any callback `f` for "Hi". -/
def scenarioAMap (f : Nat) : ActionMap :=
  [(1024, .str "QUIT"), (1023, .callable f)]

/-- C5: compiling the flat spec `[("Hi", None, hi_cb)]` assigns id
`FIRST_ID` to "Hi" and `FIRST_ID + 1` to the synthetic "Quit" entry, and
dispatching `FIRST_ID` performs exactly one call `hi_cb(self)` of the
user callback with the controller as argument (`ExecResult.invoke f`). -/
theorem scenarioA_ids_and_dispatch (f : Nat) :
    prepareMenuOptions [.tup "Hi" Option.none (.callable f)]
      = .ok ([.mk "Hi" Option.none (.callable f) (.raw []) FIRST_ID,
              .mk "Quit" Option.none (.str "QUIT") (.raw []) (FIRST_ID + 1)],
             scenarioAMap f)
    ∧ executeMenuOption (scenarioAMap f) FIRST_ID = .invoke f := by
  exact ⟨rfl, rfl⟩

/-- Scenario B input in the spec's tuple form: the children list is the
value of the `action` (callback) field. -/
def scenarioBInput : List RawOption :=
  [.tup "Parent" Option.none
    (.iterable [.tup "A" Option.none (.callable 1),
                .tup "B" Option.none (.callable 2)])]

/-- Scenario B input with the children supplied through the `submenu`
field of a mapping instead. -/
def scenarioBDictInput : List RawOption :=
  [.dict "Parent" Option.none .pynone
    [.tup "A" Option.none (.callable 1),
     .tup "B" Option.none (.callable 2)]]

/-- C2: compiling the Scenario-B spec does not succeed with ids
`BASE..BASE+3`.  In the spec's own `(label, icon, action)` tuple form the
compiler raises `TypeError`: `_non_string_iterable` returns a boolean and
the code recurses into that boolean, which is not iterable.  Supplying
the children through the `submenu` field instead compiles, but yields the
pre-order ids `[1023, 1023, 1024, 1026]` (Parent and A share `BASE`, and
`BASE+2` is skipped), not the claimed `[BASE, BASE+1, BASE+2, BASE+3]`. -/
theorem scenarioB_compile_crashes :
    prepareMenuOptions scenarioBInput = .error .typeErrorIterBool
    ∧ ∃ tree m, prepareMenuOptions scenarioBDictInput = .ok (tree, m)
        ∧ listIds tree = [1023, 1023, 1024, 1026] := by
  exact ⟨rfl,
    [.mk "Parent" Option.none .pynone
       (.compiled [.mk "A" Option.none (.callable 1) (.raw []) 1023,
                   .mk "B" Option.none (.callable 2) (.raw []) 1024]) 1023,
     .mk "Quit" Option.none (.str "QUIT") (.raw []) 1026],
    [(1026, .str "QUIT"), (1024, .callable 2), (1023, .callable 1)],
    rfl, rfl⟩

/-- Failing input for C1: a pre-built `MenuOption('S', submenu=[...])`
whose submenu holds one plain leaf. -/
def c1Input : List RawOption :=
  [.node "S" Option.none .pynone [.tup "A" Option.none (.callable 5)]]

/-- C1: action ids are not unique along the pre-order walk.  The counter
is incremented only after the submenu recursion returns, so the submenu
"S" and its first child "A" both receive id 1023 (and id 1024 is then
skipped: the quit leaf gets 1025).  Moreover the submenu's id is bound in
the dispatch map to the first child's callback, so `_create_menu` would
render the submenu node as a plain command item. -/
theorem submenu_child_id_duplicated :
    ∃ tree m, prepareMenuOptions c1Input = .ok (tree, m)
      ∧ listIds tree = [1023, 1023, 1025]
      ∧ mapLookup m 1023 = some (.callable 5) := by
  exact ⟨[.mk "S" Option.none .pynone
            (.compiled [.mk "A" Option.none (.callable 5) (.raw []) 1023]) 1023,
          .mk "Quit" Option.none (.str "QUIT") (.raw []) 1025],
         [(1025, .str "QUIT"), (1023, .callable 5)],
         rfl, rfl, rfl⟩

theorem CompSt_nextId (n : Nat) (a : ActionMap) : (CompSt.mk n a).nextId = n := rfl

/-- Bounds on the compiler's id assignment: a successful compile of one
entry strictly advances the counter, the entry's own id is the counter's
value on entry, and every id appearing in the compiled node lies in the
half-open interval spanned by the counter. -/
theorem recompileOne_bound :
    ∀ (o : RawOption) (st : CompSt), ∀ c st',
      recompileOne o st = .ok (c, st') →
        st.nextId < st'.nextId ∧ c.action_id = st.nextId ∧
        ∀ j ∈ nodeIds c, st.nextId ≤ j ∧ j < st'.nextId := by
  refine recompileOne.induct
    (fun o st => ∀ c st', recompileOne o st = .ok (c, st') →
        st.nextId < st'.nextId ∧ c.action_id = st.nextId ∧
        ∀ j ∈ nodeIds c, st.nextId ≤ j ∧ j < st'.nextId)
    (fun l st => ∀ cs st', recompileList l st = .ok (cs, st') →
        st.nextId ≤ st'.nextId ∧
        ∀ j ∈ listIds cs, st.nextId ≤ j ∧ j < st'.nextId)
    ?_ ?_ ?_ ?_ ?_ ?_ ?_ ?_ ?_ ?_ ?_ ?_ ?_ ?_ ?_
  · -- unrecognized entry type: raises
    intro st c st' h
    rw [recompileOne.eq_def] at h
    simp at h
  · -- tuple, leaf branch
    intro st t i cb hleaf c st' h
    rw [recompileOne.eq_def] at h
    simp only [hleaf, if_true, Except.ok.injEq, Prod.mk.injEq] at h
    obtain ⟨hc, hst'⟩ := h
    subst hc; subst hst'
    refine ⟨by simp only [CompSt_nextId]; omega, rfl, ?_⟩
    intro j hj
    simp [nodeIds, subIds] at hj
    simp only [CompSt_nextId]
    omega
  · -- tuple, non-leaf branch: raises
    intro st t i cb hleaf c st' h
    rw [recompileOne.eq_def] at h
    simp [hleaf] at h
  · -- mapping, leaf branch
    intro st t i cb sub hleaf c st' h
    rw [recompileOne.eq_def] at h
    simp only [hleaf, if_true, Except.ok.injEq, Prod.mk.injEq] at h
    obtain ⟨hc, hst'⟩ := h
    subst hc; subst hst'
    refine ⟨by simp only [CompSt_nextId]; omega, rfl, ?_⟩
    intro j hj
    simp [nodeIds, subIds] at hj
    simp only [CompSt_nextId]
    omega
  · -- mapping, non-leaf, empty submenu: raises
    intro st t i cb hleaf c st' h
    rw [recompileOne.eq_def] at h
    simp [hleaf] at h
  · -- mapping, non-leaf, submenu recursion raises
    intro st t i cb hleaf s rest e hrec _ c st' h
    rw [recompileOne.eq_def] at h
    simp [hleaf, hrec] at h
  · -- mapping, non-leaf, submenu recursion succeeds
    intro st t i cb hleaf s rest children st2 hrec ih c st' h
    rw [recompileOne.eq_def] at h
    simp only [hleaf, Bool.false_eq_true, if_false, hrec, Except.ok.injEq,
      Prod.mk.injEq] at h
    obtain ⟨hc, hst'⟩ := h
    subst hc; subst hst'
    obtain ⟨hle, hids⟩ := ih children st2 hrec
    refine ⟨by simp only [CompSt_nextId]; omega, rfl, ?_⟩
    intro j hj
    simp [nodeIds, subIds, listIds] at hj
    simp only [CompSt_nextId]
    rcases hj with hj | hj
    · omega
    · have := hids j hj
      omega
  · -- pre-built node, leaf branch
    intro st t i cb sub hleaf c st' h
    rw [recompileOne.eq_def] at h
    simp only [hleaf, if_true, Except.ok.injEq, Prod.mk.injEq] at h
    obtain ⟨hc, hst'⟩ := h
    subst hc; subst hst'
    refine ⟨by simp only [CompSt_nextId]; omega, rfl, ?_⟩
    intro j hj
    simp [nodeIds, subIds] at hj
    simp only [CompSt_nextId]
    omega
  · -- pre-built node, non-leaf, empty submenu: raises
    intro st t i cb hleaf c st' h
    rw [recompileOne.eq_def] at h
    simp [hleaf] at h
  · -- pre-built node, non-leaf, submenu recursion raises
    intro st t i cb hleaf s rest e hrec _ c st' h
    rw [recompileOne.eq_def] at h
    simp [hleaf, hrec] at h
  · -- pre-built node, non-leaf, submenu recursion succeeds
    intro st t i cb hleaf s rest children st2 hrec ih c st' h
    rw [recompileOne.eq_def] at h
    simp only [hleaf, Bool.false_eq_true, if_false, hrec, Except.ok.injEq,
      Prod.mk.injEq] at h
    obtain ⟨hc, hst'⟩ := h
    subst hc; subst hst'
    obtain ⟨hle, hids⟩ := ih children st2 hrec
    refine ⟨by simp only [CompSt_nextId]; omega, rfl, ?_⟩
    intro j hj
    simp [nodeIds, subIds, listIds] at hj
    simp only [CompSt_nextId]
    rcases hj with hj | hj
    · omega
    · have := hids j hj
      omega
  · -- empty sibling list
    intro st cs st' h
    rw [recompileList.eq_def] at h
    simp only [Except.ok.injEq, Prod.mk.injEq] at h
    obtain ⟨hcs, hst'⟩ := h
    subst hcs; subst hst'
    exact ⟨le_refl _, by simp [listIds]⟩
  · -- sibling list, head raises
    intro st s rest e hone _ cs st' h
    rw [recompileList.eq_def] at h
    simp [hone] at h
  · -- sibling list, head succeeds, tail raises
    intro st s rest c st1 hone e hrest _ _ cs st' h
    rw [recompileList.eq_def] at h
    simp [hone, hrest] at h
  · -- sibling list, head and tail succeed
    intro st s rest c st1 hone children st2 hrest ih1 ih2 cs st' h
    rw [recompileList.eq_def] at h
    simp only [hone, hrest, Except.ok.injEq, Prod.mk.injEq] at h
    obtain ⟨hcs, hst'⟩ := h
    subst hcs; subst hst'
    obtain ⟨hlt, _, hids1⟩ := ih1 c st1 hone
    obtain ⟨hle, hids2⟩ := ih2 children st2 hrest
    refine ⟨by omega, ?_⟩
    intro j hj
    simp only [listIds, List.mem_append] at hj
    rcases hj with hj | hj
    · have := hids1 j hj; omega
    · have := hids2 j hj; omega

/-- List version of `recompileOne_bound`: a successful compile of a
sibling list never decreases the counter and every assigned id lies below
the final counter value. -/
theorem recompileList_bound :
    ∀ (l : List RawOption) (st : CompSt), ∀ cs st',
      recompileList l st = .ok (cs, st') →
        st.nextId ≤ st'.nextId ∧
        ∀ j ∈ listIds cs, st.nextId ≤ j ∧ j < st'.nextId := by
  intro l
  induction l with
  | nil =>
      intro st cs st' h
      rw [recompileList.eq_def] at h
      simp only [Except.ok.injEq, Prod.mk.injEq] at h
      obtain ⟨hcs, hst'⟩ := h
      subst hcs; subst hst'
      exact ⟨le_refl _, by simp [listIds]⟩
  | cons o rest ih =>
      intro st cs st' h
      rcases h1 : recompileOne o st with e | ⟨c, st1⟩
      · rw [recompileList.eq_def] at h
        simp [h1] at h
      · rcases h2 : recompileList rest st1 with e | ⟨cs2, st2⟩
        · rw [recompileList.eq_def] at h
          simp [h1, h2] at h
        · rw [recompileList.eq_def] at h
          simp only [h1, h2, Except.ok.injEq, Prod.mk.injEq] at h
          obtain ⟨hcs, hst'⟩ := h
          subst hcs; subst hst'
          obtain ⟨hlt, _, hids1⟩ := recompileOne_bound o st c st1 h1
          obtain ⟨hle, hids2⟩ := ih st1 cs2 st2 h2
          refine ⟨by omega, ?_⟩
          intro j hj
          simp only [listIds, List.mem_append] at hj
          rcases hj with hj | hj
          · have := hids1 j hj; omega
          · have := hids2 j hj; omega

/-- Decomposition of a successful compile of a list ending in one extra
entry: the front compiles first, then the last entry compiles from the
front's final state, and the results are concatenated. -/
theorem recompileList_snoc (l : List RawOption) (o : RawOption) :
    ∀ (st : CompSt) (r : List CMenuOption × CompSt),
      recompileList (l ++ [o]) st = .ok r →
      ∃ front st1 c st2, recompileList l st = .ok (front, st1)
        ∧ recompileOne o st1 = .ok (c, st2) ∧ r = (front ++ [c], st2) := by
  induction l with
  | nil =>
      intro st r h
      simp only [List.nil_append] at h
      rcases h1 : recompileOne o st with e | ⟨c, st1⟩
      · rw [recompileList.eq_def] at h
        simp [h1] at h
      · rw [recompileList.eq_def] at h
        simp only [h1] at h
        rw [recompileList.eq_def] at h
        simp only [Except.ok.injEq] at h
        exact ⟨[], st, c, st1, rfl, h1, h.symm⟩
  | cons a rest ih =>
      intro st r h
      simp only [List.cons_append] at h
      rcases h1 : recompileOne a st with e | ⟨c0, st0⟩
      · rw [recompileList.eq_def] at h
        simp [h1] at h
      · rcases h2 : recompileList (rest ++ [o]) st0 with e | r2
        · rw [recompileList.eq_def] at h
          simp [h1, h2] at h
        · rw [recompileList.eq_def] at h
          simp only [h1, h2, Except.ok.injEq] at h
          obtain ⟨front, st1, c, st2, hf, ho, hr2⟩ := ih st0 r2 h2
          refine ⟨c0 :: front, st1, c, st2, ?_, ho, ?_⟩
          · rw [recompileList.eq_def]
            simp [h1, hf]
          · subst hr2
            simp at h
            simp [← h]

/-- Compiling the synthetic `MenuOption('Quit', callback=QUIT)` entry from
any compiler state yields a Quit leaf carrying the current counter value
and registers that id in the dispatch map. -/
theorem recompileOne_quit (st : CompSt) :
    recompileOne quitRaw st =
      .ok (.mk "Quit" Option.none (.str "QUIT") (.raw []) st.nextId,
           ⟨st.nextId + 1, (st.nextId, .str "QUIT") :: st.actions⟩) := rfl

/-- C3: every tree the compiler produces ends, at top level, with the
synthetic Quit leaf (label "Quit", bound to the special `QUIT` token):
that leaf carries a strictly higher action id than every other node of
the compiled tree, and dispatching its id takes the teardown path
`DestroyWindow`, not a user callback. -/
theorem quit_leaf_last_highest (input : List RawOption)
    (tree : List CMenuOption) (m : ActionMap)
    (h : prepareMenuOptions input = .ok (tree, m)) :
    ∃ front q, tree = front ++ [q]
      ∧ q.text = "Quit" ∧ q.callback = .str "QUIT" ∧ q.submenu = .raw []
      ∧ nodeIds q = [q.action_id]
      ∧ (∀ j ∈ listIds front, j < q.action_id)
      ∧ executeMenuOption m q.action_id = .destroyWindow := by
  unfold prepareMenuOptions at h
  rcases hr : recompileList (input ++ [quitRaw]) ⟨FIRST_ID, []⟩ with e | ⟨tree0, stF⟩
  · rw [hr] at h
    cases h
  · rw [hr] at h
    simp only [Except.ok.injEq, Prod.mk.injEq] at h
    obtain ⟨htree, hm⟩ := h
    obtain ⟨front, st1, c, st2, hf, ho, hr2⟩ :=
      recompileList_snoc input quitRaw _ _ hr
    rw [recompileOne_quit st1] at ho
    simp only [Except.ok.injEq, Prod.mk.injEq] at ho
    obtain ⟨hc, hst2⟩ := ho
    subst hc
    subst hst2
    injection hr2 with h3 h4
    subst h4
    subst htree
    subst hm
    refine ⟨front, _, h3, rfl, rfl, rfl, rfl, ?_, ?_⟩
    · intro j hj
      exact (((recompileList_bound input ⟨FIRST_ID, []⟩ front st1 hf).2) j hj).2
    · simp [executeMenuOption, mapLookup, isSpecial, CMenuOption.action_id]

/-- Witness for C3 at the concrete one-leaf input of Scenario A. -/
theorem quit_leaf_last_highest_witness :
    ∃ front q,
      ([.mk "Hi" Option.none (.callable 7) (.raw []) 1023,
        .mk "Quit" Option.none (.str "QUIT") (.raw []) 1024] :
          List CMenuOption) = front ++ [q]
      ∧ q.text = "Quit" ∧ q.callback = .str "QUIT" ∧ q.submenu = .raw []
      ∧ nodeIds q = [q.action_id]
      ∧ (∀ j ∈ listIds front, j < q.action_id)
      ∧ executeMenuOption [(1024, .str "QUIT"), (1023, .callable 7)]
          q.action_id = .destroyWindow :=
  quit_leaf_last_highest [.tup "Hi" Option.none (.callable 7)] _ _ rfl

/-- Entry shapes that claim C7 calls structurally bad: a value of an
unrecognized type, or a recognized input form whose action is neither
callable, nor the special token, nor a non-string iterable, and that has
no children. -/
def badEntry : RawOption → Prop
  | .unrecognized => True
  | .tup _ _ cb => isLeafAction cb = false ∧ nonStringIterable cb = false
  | .dict _ _ cb sub =>
      isLeafAction cb = false ∧ nonStringIterable cb = false ∧ sub = []
  | .node _ _ cb sub =>
      isLeafAction cb = false ∧ nonStringIterable cb = false ∧ sub = []

/-- A structurally bad entry makes the loop body raise, whatever the
compiler state. -/
theorem recompileOne_bad (o : RawOption) (hbad : badEntry o) (st : CompSt) :
    ∃ e, recompileOne o st = .error e := by
  cases o with
  | unrecognized => exact ⟨.unknownOptionType, rfl⟩
  | tup t i cb =>
      obtain ⟨h1, h2⟩ := hbad
      refine ⟨.unknownItem t, ?_⟩
      rw [recompileOne.eq_def]
      simp [h1, compileEntryErr, h2]
  | dict t i cb sub =>
      obtain ⟨h1, h2, h3⟩ := hbad
      subst h3
      refine ⟨.unknownItem t, ?_⟩
      rw [recompileOne.eq_def]
      simp [h1, compileEntryErr, h2]
  | node t i cb sub =>
      obtain ⟨h1, h2, h3⟩ := hbad
      subst h3
      refine ⟨.unknownItem t, ?_⟩
      rw [recompileOne.eq_def]
      simp [h1, compileEntryErr, h2]

/-- A sibling list containing a structurally bad entry never compiles:
either the bad entry itself raises when reached, or an earlier entry
already raised. -/
theorem recompileList_bad (o : RawOption) (hbad : badEntry o) :
    ∀ (l : List RawOption), o ∈ l → ∀ st,
      ∃ e, recompileList l st = .error e := by
  intro l
  induction l with
  | nil =>
      intro hmem
      cases hmem
  | cons a rest ih =>
      intro hmem st
      rcases List.mem_cons.mp hmem with heq | hmem'
      · subst heq
        obtain ⟨e, he⟩ := recompileOne_bad o hbad st
        refine ⟨e, ?_⟩
        rw [recompileList.eq_def]
        simp [he]
      · rcases h1 : recompileOne a st with e | ⟨c, st1⟩
        · exact ⟨e, by rw [recompileList.eq_def]; simp [h1]⟩
        · obtain ⟨e, he⟩ := ih hmem' st1
          exact ⟨e, by rw [recompileList.eq_def]; simp [h1, he]⟩

/-- C7: a raw menu specification containing an entry that is neither a
recognized input form nor classifiable as leaf or submenu makes
compilation raise a structural error (this happens in `__init__`, before
the controller starts), and the `_menu_options` field keeps its previous
value: no partial tree is put into service. -/
theorem bad_entry_compile_fails (o : RawOption) (input : List RawOption)
    (old : List CMenuOption) (hbad : badEntry o) (hmem : o ∈ input) :
    (∃ e, prepareMenuOptions input = .error e)
    ∧ menuAfterPrepare old input = old := by
  obtain ⟨e, he⟩ := recompileList_bad o hbad (input ++ [quitRaw])
      (List.mem_append_left _ hmem) ⟨FIRST_ID, []⟩
  have hp : prepareMenuOptions input = .error e := by
    unfold prepareMenuOptions
    rw [he]
  exact ⟨⟨e, hp⟩, by unfold menuAfterPrepare; rw [hp]⟩

/-- Witness for C7: a tuple entry whose action is `None`. -/
theorem bad_entry_compile_fails_witness :
    (∃ e, prepareMenuOptions [.tup "X" Option.none .pynone] = .error e)
    ∧ menuAfterPrepare [] [.tup "X" Option.none .pynone] = [] :=
  bad_entry_compile_fails (.tup "X" Option.none .pynone)
    [.tup "X" Option.none .pynone] [] ⟨rfl, rfl⟩ (List.mem_singleton.mpr rfl)

/-- C9: with `default_menu_index = 1` and two top-level leaves, a
left-button double click executes the option at id `FIRST_ID + 1`, which
dispatches the second leaf's callback. -/
theorem dblclick_dispatch (f0 f1 : Nat) :
    ∃ tree m,
      prepareMenuOptions [.tup "A" Option.none (.callable f0),
                          .tup "B" Option.none (.callable f1)] = .ok (tree, m)
      ∧ notifyHandler 1 WM_LBUTTONDBLCLK = .executeOption (FIRST_ID + 1)
      ∧ executeMenuOption m (FIRST_ID + 1) = .invoke f1 := by
  exact ⟨[.mk "A" Option.none (.callable f0) (.raw []) 1023,
          .mk "B" Option.none (.callable f1) (.raw []) 1024,
          .mk "Quit" Option.none (.str "QUIT") (.raw []) 1025],
         [(1025, .str "QUIT"), (1024, .callable f1), (1023, .callable f0)],
         rfl, rfl, rfl⟩

/-- Value held by the `check_hook` attribute of a `CheckBoxMenuOption`,
over an external-state type `E` the hook may read.  `callable` is a
function object (truthy and callable, so the guard
`if self.check_hook and callable(self.check_hook)` passes);
`pynone` is `None` (falsy); `nonCallable` is a truthy non-callable value
(the guard's `callable` test fails). -/
inductive HookVal (E : Type) : Type where
  | pynone : HookVal E
  | callable : (E → Bool) → HookVal E
  | nonCallable : HookVal E

/-- The attributes of a `CheckBoxMenuOption` relevant to its checked
state: the hook, the cached `checked` flag, and the native rendering
fields `menu_handle` / `menu_position` set by `_create_menu`. -/
structure CheckBoxState (E : Type) : Type where
  check_hook : HookVal E
  checked : Bool
  menu_handle : Option Nat
  menu_position : Nat

/-- The method `_get_checked`: when the hook is truthy and callable, the
cached flag is overwritten with `bool(self.check_hook())` evaluated on
the current external state; otherwise nothing happens. -/
def getChecked {E : Type} (s : CheckBoxState E) (env : E) : CheckBoxState E :=
  match s.check_hook with
  | .callable f => { s with checked := f env }
  | _ => s

/-- The state change `CheckBoxMenuOption.refresh` performs on the node:
it calls `_get_checked`; the remainder of `refresh` only synchronizes the
native menu item (`GetMenuState` / `CheckMenuItem`), which are calls into
the external shell adapter and touch no node attribute. -/
def cbRefresh {E : Type} (s : CheckBoxState E) (env : E) : CheckBoxState E :=
  getChecked s env

/-- Modelled from the spec: the win32 adapter's `MFS_CHECKED` flag
(standard Win32 value; the adapter module is not under `src/`). -/
def MFS_CHECKED : Nat := 8

/-- Modelled from the spec: the win32 adapter's `MFS_UNCHECKED` flag. -/
def MFS_UNCHECKED : Nat := 0

/-- The `fstate` property getter: it first runs `_get_checked` (mutating
the cached flag) and then reports `MFS_CHECKED` or `MFS_UNCHECKED`. -/
def fstateGet {E : Type} (s : CheckBoxState E) (env : E) :
    CheckBoxState E × Nat :=
  let s1 := getChecked s env
  (s1, if s1.checked then MFS_CHECKED else MFS_UNCHECKED)

/-- The `fstate` property setter: its body is a bare `return`, so the
assignment `obj.fstate = value` runs this and changes nothing. -/
def fstateSet {E : Type} (s : CheckBoxState E) (v : Nat) : CheckBoxState E :=
  s

/-- Direct assignment `obj.checked = value` from external code: `checked`
is a plain attribute (no property guards it, as the TODO above the class
notes), so ordinary Python attribute assignment stores the value. -/
def setCheckedAttr {E : Type} (s : CheckBoxState E) (v : Bool) :
    CheckBoxState E :=
  { s with checked := v }

/-- C4: for a checkbox whose hook is a function, the cached checked value
immediately after `refresh` equals the hook's current return value,
whatever value was cached before; with no hook supplied (`check_hook` is
`None`) `refresh` leaves the node, and in particular the cached literal
value, unchanged. -/
theorem checkbox_refresh_hook {E : Type} (s : CheckBoxState E) (env : E) :
    (∀ f, s.check_hook = .callable f → (cbRefresh s env).checked = f env)
    ∧ (s.check_hook = .pynone → cbRefresh s env = s) := by
  constructor
  · intro f hf
    simp [cbRefresh, getChecked, hf]
  · intro hn
    simp [cbRefresh, getChecked, hn]

/-- Checkbox with a hook reading a Nat-valued external state, cached
value deliberately stale. -/
def cbHooked : CheckBoxState Nat :=
  ⟨.callable (fun n => n == 3), false, Option.none, 0⟩

/-- Checkbox without a hook. -/
def cbPlain : CheckBoxState Nat :=
  ⟨.pynone, true, Option.none, 0⟩

/-- Witness for C4: refreshing `cbHooked` on external state 3 flips the
stale cache to the hook's value, and refreshing `cbPlain` changes
nothing. -/
theorem checkbox_refresh_hook_witness :
    (cbRefresh cbHooked 3).checked = true ∧ cbRefresh cbPlain 3 = cbPlain := by
  constructor
  · have h := (checkbox_refresh_hook cbHooked 3).1 (fun n => n == 3) rfl
    simpa using h
  · exact (checkbox_refresh_hook cbPlain 3).2 rfl

/-- Concrete checkbox for the C6 counterexample. -/
def cbC6 : CheckBoxState Nat :=
  ⟨.pynone, false, Option.none, 0⟩

/-- C6 counterexample: the claim says direct mutation of the cached
`checked` flag is rejected, but `checked` is a plain writable attribute —
assigning it from external code changes the node's state. -/
theorem checkbox_checked_writable_counterexample :
    (setCheckedAttr cbC6 true).checked ≠ cbC6.checked := by
  simp [setCheckedAttr, cbC6]

/-- C6 amended: assigning the `fstate` property is a no-op that leaves
the node's entire state unchanged (the setter body is a bare `return`),
but the cached `checked` attribute itself is an ordinary writable field:
assigning it stores the assigned value (a later refresh overwrites it
only when a hook is present). -/
theorem checkbox_fstate_set_noop {E : Type} (s : CheckBoxState E) (v : Nat)
    (b : Bool) :
    fstateSet s v = s ∧ (setCheckedAttr s b).checked = b :=
  ⟨rfl, rfl⟩

/-- External facts `_load_icon` consults: `os.path.isfile`, the handle
`LoadImage` returns for a path (0 on failure), and the shared handle
`LoadIcon(0, IDI_APPLICATION)` returns. -/
structure IconEnv : Type where
  isFile : String → Bool
  loadImage : String → Nat
  defaultIcon : Nat

/-- The icon-related fields of the controller: `self._icon`,
`self._icon_shared` and `self._hicon`. -/
structure IconState : Type where
  icon : Option String
  icon_shared : Bool
  hicon : Nat

/-- Icon fields as `__init__` leaves them: `self._icon = icon`,
`self._icon_shared = False`, `self._hicon = 0`. -/
def initIconState (icon : Option String) : IconState := ⟨icon, false, 0⟩

/-- The method `_load_icon`.  Returns the new field values together with
the list of handles passed to `DestroyIcon` during the call; the release
of a previously owned handle happens before any new handle is loaded.
The branch where `LoadImage` returns 0 and the no-file/no-path branches
all end in the shared-default fallback (`self._hicon = LoadIcon(...)`,
`self._icon_shared = True`, `self._icon = None`). -/
def loadIcon (env : IconEnv) (s : IconState) : IconState × List Nat :=
  match (if s.icon_shared = false ∧ s.hicon ≠ 0 then
           ({ s with hicon := 0 }, [s.hicon])
         else (s, [])) with
  | (s1, destroyed) =>
      match s1.icon with
      | some p =>
          if env.isFile p then
            if env.loadImage p = 0 then
              ({ s1 with hicon := env.defaultIcon, icon_shared := true,
                         icon := Option.none }, destroyed)
            else
              ({ s1 with hicon := env.loadImage p, icon_shared := false },
               destroyed)
          else
            ({ s1 with hicon := env.defaultIcon, icon_shared := true,
                       icon := Option.none }, destroyed)
      | Option.none =>
          ({ s1 with hicon := env.defaultIcon, icon_shared := true,
                     icon := Option.none }, destroyed)

/-- The icon part of `update(icon=...)` with a truthy icon argument:
`self._icon = icon` followed by `self._load_icon()`. -/
def updateIcon (env : IconEnv) (s : IconState) (newIcon : String) :
    IconState × List Nat :=
  loadIcon env { s with icon := some newIcon }

/-- The icon-resource effect of teardown (`_destroy`): the method removes
the notification entry and posts the quit message but, as its own TODO
comment records, calls `DestroyIcon` on nothing — the icon fields are
untouched and no handle is released. -/
def destroyIcons (s : IconState) : IconState × List Nat := (s, [])

/-- Controller events that touch the icon resource fields. -/
inductive IconEvent : Type where
  | load : IconEvent
  | update : String → IconEvent
  | teardown : IconEvent

def iconStep (env : IconEnv) (s : IconState) : IconEvent → IconState × List Nat
  | .load => loadIcon env s
  | .update p => updateIcon env s p
  | .teardown => destroyIcons s

/-- Run a sequence of icon events, accumulating every handle released. -/
def runIcons (env : IconEnv) (s : IconState) :
    List IconEvent → IconState × List Nat
  | [] => (s, [])
  | e :: rest =>
      match iconStep env s e with
      | (s1, d1) =>
          match runIcons env s1 rest with
          | (s2, d2) => (s2, d1 ++ d2)

/-- Ownership invariant: whenever the stored handle is the shared default
handle, either the shared flag is set or no icon is held at all. -/
def SharedInvW (env : IconEnv) (s : IconState) : Prop :=
  s.hicon = env.defaultIcon → s.icon_shared = true ∨ s.hicon = 0

/-- The handles `_load_icon` releases are exactly the previously owned
non-null handle. -/
theorem loadIcon_destroyed (env : IconEnv) (s : IconState) :
    (loadIcon env s).2 =
      if s.icon_shared = false ∧ s.hicon ≠ 0 then [s.hicon] else [] := by
  unfold loadIcon
  by_cases hd : s.icon_shared = false ∧ s.hicon ≠ 0
  · rw [if_pos hd, if_pos hd]
    rcases hi : s.icon with _ | p
    · simp [hi]
    · by_cases hf : env.isFile p = true
      · by_cases hz : env.loadImage p = 0
        · simp [hi, hf, hz]
        · simp [hi, hf, hz]
      · simp [hi, hf]
  · rw [if_neg hd, if_neg hd]
    rcases hi : s.icon with _ | p
    · simp [hi]
    · by_cases hf : env.isFile p = true
      · by_cases hz : env.loadImage p = 0
        · simp [hi, hf, hz]
        · simp [hi, hf, hz]
      · simp [hi, hf]

/-- After any `_load_icon` call the ownership invariant holds: the state
either holds the shared default (with the shared flag set) or a handle
`LoadImage` returned, which is distinct from the default. -/
theorem loadIcon_inv (env : IconEnv)
    (henv : ∀ p, env.loadImage p ≠ env.defaultIcon) (s : IconState) :
    SharedInvW env (loadIcon env s).1 := by
  unfold loadIcon
  by_cases hd : s.icon_shared = false ∧ s.hicon ≠ 0
  · rw [if_pos hd]
    rcases hi : s.icon with _ | p
    · simp only [hi]
      intro _; left; rfl
    · by_cases hf : env.isFile p = true
      · by_cases hz : env.loadImage p = 0
        · simp only [hi, hf, hz, if_true]
          intro _; left; rfl
        · simp only [hi, hf, hz, if_true, if_neg]
          intro hdef
          exact absurd hdef (henv p)
      · simp only [hi, hf, Bool.false_eq_true, if_false]
        intro _; left; rfl
  · rw [if_neg hd]
    rcases hi : s.icon with _ | p
    · simp only [hi]
      intro _; left; rfl
    · by_cases hf : env.isFile p = true
      · by_cases hz : env.loadImage p = 0
        · simp only [hi, hf, hz, if_true]
          intro _; left; rfl
        · simp only [hi, hf, hz, if_true, if_neg]
          intro hdef
          exact absurd hdef (henv p)
      · simp only [hi, hf, Bool.false_eq_true, if_false]
        intro _; left; rfl

/-- A state satisfying the ownership invariant never releases the shared
default handle during `_load_icon`. -/
theorem loadIcon_no_default_destroy (env : IconEnv) (s : IconState)
    (hinv : SharedInvW env s) :
    env.defaultIcon ∉ (loadIcon env s).2 := by
  rw [loadIcon_destroyed]
  by_cases hd : s.icon_shared = false ∧ s.hicon ≠ 0
  · rw [if_pos hd]
    intro hmem
    rw [List.mem_singleton] at hmem
    rcases hinv hmem.symm with hsh | hz
    · rw [hd.1] at hsh
      cases hsh
    · exact hd.2 hz
  · rw [if_neg hd]
    intro hmem
    cases hmem

/-- Along every event trace from the freshly constructed state, the
shared default icon handle is never passed to `DestroyIcon`. -/
theorem runIcons_no_default (env : IconEnv)
    (henv : ∀ p, env.loadImage p ≠ env.defaultIcon) :
    ∀ (trace : List IconEvent) (s : IconState), SharedInvW env s →
      env.defaultIcon ∉ (runIcons env s trace).2 := by
  intro trace
  induction trace with
  | nil =>
      intro s _
      simp [runIcons]
  | cons e rest ih =>
      intro s hs
      have hstep : SharedInvW env (iconStep env s e).1
          ∧ env.defaultIcon ∉ (iconStep env s e).2 := by
        cases e with
        | load => exact ⟨loadIcon_inv env henv s, loadIcon_no_default_destroy env s hs⟩
        | update p =>
            refine ⟨loadIcon_inv env henv _, ?_⟩
            apply loadIcon_no_default_destroy
            intro hdef
            exact hs hdef
        | teardown => exact ⟨hs, by simp [iconStep, destroyIcons]⟩
      rcases hr : iconStep env s e with ⟨s1, d1⟩
      rw [hr] at hstep
      rcases hr2 : runIcons env s1 rest with ⟨s2, d2⟩
      have hrest := ih s1 hstep.1
      rw [hr2] at hrest
      simp only [runIcons, hr, hr2, List.mem_append]
      rintro (hm | hm)
      · exact hstep.2 hm
      · exact hrest hm

/-- Environment for the C8 counterexample: the icon path exists,
`LoadImage` yields handle 7, the shared default handle is 99. -/
def iconEnvC8 : IconEnv := ⟨fun _ => true, fun _ => 7, 99⟩

/-- Controller icon state after construction with an existing icon file
followed by the first `_load_icon` call: an owned (non-shared) handle. -/
def ownedIconState : IconState :=
  (loadIcon iconEnvC8 (initIconState (some "owned.ico"))).1

/-- C8 counterexample: the controller holds an owned icon handle, yet
teardown (`_destroy`) releases no handle at all — the owned icon is not
destroyed on teardown, contradicting the claim that an icon loaded from a
valid file path is released on teardown. -/
theorem teardown_releases_nothing_counterexample :
    ownedIconState.icon_shared = false ∧ ownedIconState.hicon ≠ 0
    ∧ (destroyIcons ownedIconState).2 = [] := by
  refine ⟨rfl, by decide, rfl⟩

/-- C8 amended: along every event trace from construction the shared
default icon handle is never released (given that `LoadImage` handles are
distinct from the shared default handle); an owned icon handle is
released — before the replacement is loaded — whenever `_load_icon` runs
again; but teardown releases nothing, so the icon held at teardown leaks
rather than being destroyed. -/
theorem icon_ownership_amended (env : IconEnv)
    (henv : ∀ p, env.loadImage p ≠ env.defaultIcon)
    (icon0 : Option String) (trace : List IconEvent) (s : IconState) :
    env.defaultIcon ∉ (runIcons env (initIconState icon0) trace).2
    ∧ (s.icon_shared = false → s.hicon ≠ 0 → (loadIcon env s).2 = [s.hicon])
    ∧ (iconStep env s .teardown).2 = [] := by
  refine ⟨?_, ?_, rfl⟩
  · apply runIcons_no_default env henv
    intro h0
    right
    rfl
  · intro h1 h2
    rw [loadIcon_destroyed]
    rw [if_pos ⟨h1, h2⟩]

/-- Witness for C8's amended theorem at the concrete environment and a
load-then-teardown trace. -/
theorem icon_ownership_amended_witness :
    (99 ∉ (runIcons iconEnvC8 (initIconState (some "owned.ico"))
            [.load, .teardown]).2)
    ∧ (loadIcon iconEnvC8 ownedIconState).2 = [ownedIconState.hicon]
    ∧ (iconStep iconEnvC8 ownedIconState .teardown).2 = [] := by
  have T := icon_ownership_amended iconEnvC8 (fun p => by simp [iconEnvC8])
      (some "owned.ico") [.load, .teardown] ownedIconState
  exact ⟨T.1, T.2.1 rfl (by decide), T.2.2⟩

/-- The three forms the `menu_options` constructor argument can take:
a caller-owned mutable list, an immutable tuple, or `None`. -/
inductive MenuSpecInput : Type where
  | pyList : List RawOption → MenuSpecInput
  | pyTuple : List RawOption → MenuSpecInput
  | pyNone : MenuSpecInput

/-- Contents of the caller's `menu_options` object after
`_prepare_menu_options` ran, together with whether that object was
mutated in place.  The source first runs
`menu_options = menu_options or ()` — `None` and an empty list are falsy
and are replaced by the empty tuple — then copies only tuples
(`list(menu_options)`) and finally appends the synthetic Quit entry with
`menu_options.append(...)`, which mutates a caller-supplied non-empty
list in place. -/
def callerMenuAfterInit : MenuSpecInput → List RawOption × Bool
  | .pyNone => ([], false)
  | .pyTuple l => (l, false)
  | .pyList [] => ([], false)
  | .pyList (o :: rest) => ((o :: rest) ++ [quitRaw], true)

/-- The sibling list actually handed to the compiler (after the `or ()`
normalization, the tuple copy and the Quit append). -/
def compiledInputOf : MenuSpecInput → List RawOption
  | .pyNone => [quitRaw]
  | .pyTuple l => l ++ [quitRaw]
  | .pyList l => l ++ [quitRaw]

/-- C10 counterexample: constructing the controller with an empty
caller-owned list leaves that list empty — it does not gain a Quit
element, because the empty list is falsy and `menu_options or ()`
replaces it with a fresh tuple before the append. -/
theorem empty_list_not_mutated_counterexample :
    (callerMenuAfterInit (.pyList [])).1.length ≠
      ([] : List RawOption).length + 1 := by
  decide

/-- C10 amended: a non-empty caller-supplied list is mutated in place —
after construction it has exactly one more element, whose label is
"Quit" — while a tuple is copied and left unchanged, and `None` and the
empty list are replaced by the empty tuple (so an empty caller list is
also left unchanged). -/
theorem menu_list_mutation_amended (o : RawOption) (rest l : List RawOption) :
    callerMenuAfterInit (.pyList (o :: rest)) = ((o :: rest) ++ [quitRaw], true)
    ∧ (callerMenuAfterInit (.pyList (o :: rest))).1.length
        = (o :: rest).length + 1
    ∧ (callerMenuAfterInit (.pyList (o :: rest))).1.getLast? = some quitRaw
    ∧ quitRaw = .node "Quit" Option.none (.str "QUIT") []
    ∧ callerMenuAfterInit (.pyTuple l) = (l, false)
    ∧ callerMenuAfterInit (.pyList []) = ([], false) := by
  refine ⟨rfl, by simp [callerMenuAfterInit], ?_, rfl, rfl, rfl⟩
  show ((o :: rest) ++ [quitRaw]).getLast? = some quitRaw
  rw [List.getLast?_append]
  rfl
